import Mathlib

/-!
Verification of the cranberry color-palette tool.

The repository is a small client-side palette generator: each seed color
yields a 10-step tonal ramp ("shades") by interpolating in CIE LAB space
between a white-mixed lightest endpoint, the seed color, and a black-mixed
darkest endpoint, with an easing function distributing the light-to-seed
head of the ramp.  This file embeds the core functions of the source
(`SHADING`, `getShades`, `updateAttrForIndex`, the ratio-input fallback and
the CSS variables output) and proves the frozen claims about them.

Colors are represented directly by their CIE LAB coordinates: the source
stores colors as sRGB hex strings and immediately converts them through the
chroma-js adapter, and all the mixing arithmetic the claims speak about
happens on the LAB coordinates.  The chroma-js adapter itself is not part
of the repository; its two operations used by `getShades` are modelled from
the spec (§4.1): `mix` is componentwise linear interpolation of the LAB
coordinates, and evaluating a two-stop LAB gradient at parameter `t` is
`mix` with ratio `t`.
-/

namespace Cranberry

/-- A color, represented by its CIE LAB coordinates. -/
@[ext]
structure Lab where
  L : ℝ
  A : ℝ
  B : ℝ

/-- Modelled from the spec: the LAB coordinates of the `"#fff"` literal used
as the white mixing target in `getShades` (sRGB white is L=100, a=0, b=0). -/
def WHITE : Lab := ⟨100, 0, 0⟩

/-- Modelled from the spec: the LAB coordinates of the `"#000"` literal used
as the black mixing target in `getShades` (sRGB black is L=0, a=0, b=0). -/
def BLACK : Lab := ⟨0, 0, 0⟩

/-- Modelled from the spec (§4.1): `chroma(a).mix(b, ratio, "lab")` —
componentwise linear interpolation of the LAB coordinates; ratio 0 yields
`a`, ratio 1 yields `b`.  The ratio is used as given (no clamping). -/
def mixLab (a b : Lab) (r : ℝ) : Lab :=
  ⟨a.L + r * (b.L - a.L), a.A + r * (b.A - a.A), a.B + r * (b.B - a.B)⟩

/-- Modelled from the spec (§4.1): `chroma.scale([a, b]).mode("lab")`
evaluated at parameter `t` — the two-stop LAB gradient, equivalent to `mix`
with ratio `t`. -/
def scaleLab (a b : Lab) (t : ℝ) : Lab := mixLab a b t

/-- The four keys of the source's `SHADING` table. -/
inductive ShadingFunction
  | linear
  | easeIn
  | easeOut
  | easeInOut
deriving DecidableEq

/-- The source's `SHADING` table of easing functions:
`linear: x => x`, `easeIn: x => 1 - Math.cos((x * Math.PI) / 2)`,
`easeOut: x => Math.sin((x * Math.PI) / 2)`,
`easeInOut: x => (1 - Math.cos(x * Math.PI)) / 2`. -/
noncomputable def SHADING : ShadingFunction → ℝ → ℝ
  | ShadingFunction.linear => fun x => x
  | ShadingFunction.easeIn => fun x => 1 - Real.cos (x * Real.pi / 2)
  | ShadingFunction.easeOut => fun x => Real.sin (x * Real.pi / 2)
  | ShadingFunction.easeInOut => fun x => (1 - Real.cos (x * Real.pi)) / 2

/-- A palette entry (the source's `Color` interface).  The `hex` field holds
the seed color value, represented by its LAB coordinates. -/
structure Color where
  name : String
  hex : Lab
  targetIndex : ℕ
  shadingFunction : ShadingFunction
  whiteMixRatio : ℝ
  blackMixRatio : ℝ

/-- The source's `getShades`: an eased head of `targetIndex + 1` samples of
the gradient from the white-mixed lightest shade to the seed, followed by a
linear tail of `10 - (targetIndex + 1)` samples of the gradient from the
seed to the black-mixed darkest shade, skipping parameter 0. -/
noncomputable def getShades (color : Color) : List Lab :=
  let lightestShade := mixLab color.hex WHITE color.whiteMixRatio
  let length : ℕ := color.targetIndex + 1
  let indices := List.range length
  let colors := indices.map (fun (i : ℕ) =>
    scaleLab lightestShade color.hex
      (SHADING color.shadingFunction ((i : ℝ) / (length : ℝ))))
  let darkestShade := mixLab color.hex BLACK color.blackMixRatio
  let extensionLength : ℕ := 10 - length
  let extendedIndices : List ℕ := (List.range extensionLength).map (fun i => i + 1)
  let extendedColors := extendedIndices.map (fun (i : ℕ) =>
    scaleLab color.hex darkestShade
      (SHADING ShadingFunction.linear ((i : ℝ) / (extensionLength : ℝ))))
  colors ++ extendedColors

/-- The six attribute names of a palette entry (the source's `keyof Color`). -/
inductive ColorAttr
  | name
  | hex
  | targetIndex
  | shadingFunction
  | whiteMixRatio
  | blackMixRatio
deriving DecidableEq

/-- The value type carried by each attribute (the source's `Color[keyof Color]`). -/
def AttrType : ColorAttr → Type
  | ColorAttr.name => String
  | ColorAttr.hex => Lab
  | ColorAttr.targetIndex => ℕ
  | ColorAttr.shadingFunction => ShadingFunction
  | ColorAttr.whiteMixRatio => ℝ
  | ColorAttr.blackMixRatio => ℝ

/-- A JavaScript object holding some subset of a palette entry's fields.
`updateAttrForIndex` builds its result entry by spreading whatever sits at
the updated index; when the index is out of range that is `undefined` and
the spread contributes no fields, so entries of the resulting array are in
general partial.  A missing field and a field read from `undefined` are
identified (both read back as `undefined`). -/
structure ColorObj where
  name : Option String := none
  hex : Option Lab := none
  targetIndex : Option ℕ := none
  shadingFunction : Option ShadingFunction := none
  whiteMixRatio : Option ℝ := none
  blackMixRatio : Option ℝ := none

/-- The object `{ ...o, [attr]: value }`: `o` with one field replaced. -/
def setAttr (o : ColorObj) : (a : ColorAttr) → AttrType a → ColorObj
  | ColorAttr.name, v => { o with name := some v }
  | ColorAttr.hex, v => { o with hex := some v }
  | ColorAttr.targetIndex, v => { o with targetIndex := some v }
  | ColorAttr.shadingFunction, v => { o with shadingFunction := some v }
  | ColorAttr.whiteMixRatio, v => { o with whiteMixRatio := some v }
  | ColorAttr.blackMixRatio, v => { o with blackMixRatio := some v }

/-- Reading a field of a (possibly partial) entry object. -/
def getAttr (o : ColorObj) : (a : ColorAttr) → Option (AttrType a)
  | ColorAttr.name => o.name
  | ColorAttr.hex => o.hex
  | ColorAttr.targetIndex => o.targetIndex
  | ColorAttr.shadingFunction => o.shadingFunction
  | ColorAttr.whiteMixRatio => o.whiteMixRatio
  | ColorAttr.blackMixRatio => o.blackMixRatio

/-- The full object for a palette entry; `JSON.parse(JSON.stringify(...))`
of a `Color` reproduces all six fields, so the deep copy of an entry is
`toObj`. -/
def toObj (c : Color) : ColorObj :=
  ⟨some c.name, some c.hex, some c.targetIndex, some c.shadingFunction,
    some c.whiteMixRatio, some c.blackMixRatio⟩

/-- The object with no fields (`undefined` read back fieldwise, or a hole
left in an array by an assignment past its end). -/
def emptyObj : ColorObj := {}

/-- Reading `l[i]` in JavaScript: the element when `i` is in range,
`undefined` (the empty object, fieldwise) otherwise. -/
def jsGet (l : List ColorObj) (i : ℕ) : ColorObj := (l[i]?).getD emptyObj

/-- The assignment `l[i] = v` on a JavaScript array: in range it replaces
the element; past the end it extends the array to length `i + 1`, leaving
holes between the old end and `i`. -/
def jsIndexAssign (l : List ColorObj) (i : ℕ) (v : ColorObj) : List ColorObj :=
  if i < l.length then l.set i v
  else l ++ List.replicate (i - l.length) emptyObj ++ [v]

/-- The source's `updateAttrForIndex`: deep-copy the palette
(`JSON.parse(JSON.stringify(palette))`), then
`newPalette[index] = { ...newPalette[index], [attr]: value }`.  A negative
index sets a non-index property on the array object, leaving the array's
elements unchanged. -/
def updateAttrForIndex (palette : List Color) (index : ℤ) (attr : ColorAttr)
    (value : AttrType attr) : List ColorObj :=
  let newPalette := palette.map toObj
  if index < 0 then newPalette
  else jsIndexAssign newPalette index.toNat
    (setAttr (jsGet newPalette index.toNat) attr value)

/-- The mix-ratio input handler's value computation, from
`onChange={(e) => setWhiteMixRatio(Number(e.currentTarget.value) || 0.9)}`
(and the identical black-mix handler): the parsed numeric value of the text
field, with `0.9` substituted when that value is falsy.  `none` models a
non-numeric text (`Number(...)` gives `NaN`); `some 0` is the parse of "0"
and of the empty string.  `NaN`, `0` and `-0` are the falsy numbers, so the
fallback fires exactly on `none` and `some 0`. -/
noncomputable def ratioInputFallback (parsed : Option ℝ) : ℝ :=
  match parsed with
  | none => 0.9
  | some x => if x = 0 then 0.9 else x

/-- The declaration lines of the CSS export, from `CssVariablesOutput`:
for each palette entry in order, one line per shade
`  --<name>-<index>: <cssHsl>;`.  The conversion of a LAB color to its CSS
`hsl(...)` string (`shade.css("hsl")`) is external to the repository and is
passed in as `cssHsl`. -/
noncomputable def CssLines (cssHsl : Lab → String) (colors : List Color) :
    List String :=
  colors.flatMap (fun color =>
    (getShades color).mapIdx (fun i shade =>
      "  --" ++ color.name ++ "-" ++ toString i ++ ": " ++ cssHsl shade ++ ";"))

/-- The source's `CssVariablesOutput` text: the declaration lines joined
with newlines, wrapped in a `:root { ... }` block. -/
noncomputable def cssVariablesOutput (cssHsl : Lab → String)
    (colors : List Color) : String :=
  ":root \x7b\n" ++ String.intercalate "\n" (CssLines cssHsl colors) ++ "\n\x7d"

/-! ### Basic lemmas about the embedded operations -/

theorem mixLab_zero (a b : Lab) : mixLab a b 0 = a := by
  simp [mixLab]

theorem mixLab_one (a b : Lab) : mixLab a b 1 = b := by
  simp only [mixLab, one_mul]
  ext <;> ring

theorem mixLab_self (a : Lab) (r : ℝ) : mixLab a a r = a := by
  simp [mixLab]

theorem interp_eq_right {u v r : ℝ} (hr : r ≠ 1) (h : u + r * (v - u) = v) :
    v = u := by
  have h2 : (1 - r) * (v - u) = 0 := by linear_combination -h
  rcases mul_eq_zero.1 h2 with h3 | h3
  · exact absurd (by linarith) hr
  · linarith

theorem interp_eq_left {u v r : ℝ} (hr : r ≠ 0) (h : u + r * (v - u) = u) :
    v = u := by
  have h2 : r * (v - u) = 0 := by linarith
  rcases mul_eq_zero.1 h2 with h3 | h3
  · exact absurd h3 hr
  · linarith

theorem mixLab_ne_right {a b : Lab} {r : ℝ} (hab : a ≠ b) (hr : r ≠ 1) :
    mixLab a b r ≠ b := by
  intro h
  apply hab
  cases a with
  | mk al aa ab =>
    cases b with
    | mk bl ba bb =>
      simp only [mixLab, Lab.mk.injEq] at h ⊢
      obtain ⟨h1, h2, h3⟩ := h
      exact ⟨(interp_eq_right hr h1).symm, (interp_eq_right hr h2).symm,
        (interp_eq_right hr h3).symm⟩

theorem mixLab_ne_left {a b : Lab} {r : ℝ} (hab : a ≠ b) (hr : r ≠ 0) :
    mixLab a b r ≠ a := by
  intro h
  apply hab
  cases a with
  | mk al aa ab =>
    cases b with
    | mk bl ba bb =>
      simp only [mixLab, Lab.mk.injEq] at h ⊢
      obtain ⟨h1, h2, h3⟩ := h
      exact ⟨(interp_eq_left hr h1).symm, (interp_eq_left hr h2).symm,
        (interp_eq_left hr h3).symm⟩

theorem SHADING_linear (x : ℝ) : SHADING ShadingFunction.linear x = x := rfl

theorem SHADING_zero (sf : ShadingFunction) : SHADING sf 0 = 0 := by
  cases sf <;> simp [SHADING]

theorem SHADING_one (sf : ShadingFunction) : SHADING sf 1 = 1 := by
  cases sf <;> simp [SHADING, Real.cos_pi]

theorem SHADING_lt_one (sf : ShadingFunction) {x : ℝ} (h0 : 0 ≤ x)
    (h1 : x < 1) : SHADING sf x < 1 := by
  have hpi : (0 : ℝ) < Real.pi := Real.pi_pos
  cases sf with
  | linear => simpa [SHADING] using h1
  | easeIn =>
    have hc : 0 < Real.cos (x * Real.pi / 2) := by
      apply Real.cos_pos_of_mem_Ioo
      constructor <;> nlinarith
    simp only [SHADING]
    linarith
  | easeOut =>
    have hs : Real.sin (x * Real.pi / 2) < Real.sin (Real.pi / 2) := by
      apply Real.strictMonoOn_sin
      · constructor <;> nlinarith
      · constructor <;> nlinarith
      · nlinarith
    simpa only [SHADING, Real.sin_pi_div_two] using hs
  | easeInOut =>
    have hc : Real.cos Real.pi < Real.cos (x * Real.pi) := by
      apply Real.strictAntiOn_cos
      · constructor <;> nlinarith
      · constructor <;> nlinarith
      · nlinarith
    rw [Real.cos_pi] at hc
    simp only [SHADING]
    linarith

/-! ### Structural lemmas about `getShades` -/

theorem getShades_length (c : Color) (h : c.targetIndex ≤ 9) :
    (getShades c).length = 10 := by
  simp only [getShades, List.length_append, List.length_map, List.length_range]
  omega

theorem getShades_getElem_head (c : Color) (i : ℕ) (h : i ≤ c.targetIndex) :
    (getShades c)[i]? =
      some (scaleLab (mixLab c.hex WHITE c.whiteMixRatio) c.hex
        (SHADING c.shadingFunction ((i : ℝ) / ((c.targetIndex + 1 : ℕ) : ℝ)))) := by
  simp only [getShades]
  rw [List.getElem?_append_left (by simp; omega), List.getElem?_map,
    List.getElem?_range (by omega)]
  rfl

theorem getShades_getElem_tail (c : Color) (j : ℕ) (h1 : 1 ≤ j)
    (h2 : j ≤ 9 - c.targetIndex) (h9 : c.targetIndex ≤ 9) :
    (getShades c)[c.targetIndex + j]? =
      some (scaleLab c.hex (mixLab c.hex BLACK c.blackMixRatio)
        ((j : ℝ) / ((9 - c.targetIndex : ℕ) : ℝ))) := by
  have hm : 10 - (c.targetIndex + 1) = 9 - c.targetIndex := by omega
  simp only [getShades]
  rw [List.getElem?_append_right (by simp; omega), List.getElem?_map,
    List.getElem?_map, List.getElem?_range (by simp; omega)]
  simp only [List.length_map, List.length_range, Option.map_some']
  have hj : c.targetIndex + j - (c.targetIndex + 1) + 1 = j := by omega
  rw [hj, hm]
  rfl

/-! ### Structural lemmas about `updateAttrForIndex` -/

theorem getAttr_setAttr_same (o : ColorObj) (a : ColorAttr) (v : AttrType a) :
    getAttr (setAttr o a v) a = some v := by
  cases a <;> rfl

theorem getAttr_setAttr_other (o : ColorObj) (a : ColorAttr) (v : AttrType a)
    (a2 : ColorAttr) (h : a2 ≠ a) :
    getAttr (setAttr o a v) a2 = getAttr o a2 := by
  cases a <;> cases a2 <;> first | rfl | exact absurd rfl h

theorem updateAttrForIndex_set_eq (palette : List Color) (i : ℕ)
    (h : i < palette.length) (a : ColorAttr) (v : AttrType a) :
    updateAttrForIndex palette (i : ℤ) a v =
      (palette.map toObj).set i
        (setAttr (toObj (palette.get ⟨i, h⟩)) a v) := by
  have hneg : ¬ ((i : ℤ) < 0) := by omega
  have htn : (i : ℤ).toNat = i := by omega
  have hlen : i < (palette.map toObj).length := by simpa using h
  simp only [updateAttrForIndex, jsIndexAssign, jsGet, if_neg hneg, htn,
    if_pos hlen]
  congr 1
  rw [List.getElem?_map, List.getElem?_eq_getElem h]
  rfl

theorem updateAttrForIndex_oob_eq (palette : List Color) (n : ℕ)
    (hn : palette.length ≤ n) (a : ColorAttr) (v : AttrType a) :
    updateAttrForIndex palette (n : ℤ) a v =
      (palette.map toObj) ++ List.replicate (n - palette.length) emptyObj ++
        [setAttr emptyObj a v] := by
  have hneg : ¬ ((n : ℤ) < 0) := by omega
  have htn : (n : ℤ).toNat = n := by omega
  have hlen : ¬ (n < (palette.map toObj).length) := by
    simp only [List.length_map]
    omega
  simp only [updateAttrForIndex, jsIndexAssign, jsGet, if_neg hneg, htn,
    if_neg hlen]
  rw [List.getElem?_eq_none (by simpa using hn)]
  simp

/-! ### Spec-level descriptions of `getShades`' output -/

/-- The ramp shape claimed for `generate`: exactly 10 colors; head entry `i`
(`i ≤ targetIndex`) samples the light-to-seed LAB gradient at
`shadingFunction(i / n)` with `n = targetIndex + 1`; tail entry `j`
(`1 ≤ j ≤ m`, at overall index `targetIndex + j`) samples the seed-to-dark
LAB gradient at `j / m` with `m = 9 - targetIndex`. -/
def GetShadesSpec (c : Color) : Prop :=
  (getShades c).length = 10 ∧
  (∀ i : ℕ, i ≤ c.targetIndex →
    (getShades c)[i]? =
      some (scaleLab (mixLab c.hex WHITE c.whiteMixRatio) c.hex
        (SHADING c.shadingFunction ((i : ℝ) / ((c.targetIndex + 1 : ℕ) : ℝ))))) ∧
  (∀ j : ℕ, 1 ≤ j → j ≤ 9 - c.targetIndex →
    (getShades c)[c.targetIndex + j]? =
      some (scaleLab c.hex (mixLab c.hex BLACK c.blackMixRatio)
        ((j : ℝ) / ((9 - c.targetIndex : ℕ) : ℝ))))

/-- With `targetIndex = 9` the whole 10-entry ramp is the eased head. -/
def HeadOnly (c : Color) : Prop :=
  getShades c = (List.range 10).map (fun (i : ℕ) =>
    scaleLab (mixLab c.hex WHITE c.whiteMixRatio) c.hex
      (SHADING c.shadingFunction ((i : ℝ) / 10)))

/-- With `targetIndex = 0` the head is the single lightest endpoint and the
tail supplies nine linear steps toward the darkest endpoint. -/
def SingleHead (c : Color) : Prop :=
  getShades c = mixLab c.hex WHITE c.whiteMixRatio ::
    (List.range 9).map (fun (i : ℕ) =>
      scaleLab c.hex (mixLab c.hex BLACK c.blackMixRatio) (((i : ℝ) + 1) / 9))

/-- A representative seed for concrete instantiations, shaped like the
default red entry (`targetIndex 5`, `easeInOut`, ratios 0.9/0.85); the LAB
coordinates stand in for the converted `#e4593e`. -/
noncomputable def seedRed : Color :=
  ⟨"red", ⟨55, 45, 35⟩, 5, ShadingFunction.easeInOut, 0.9, 0.85⟩

/-- A seed with `targetIndex = 9` (head-only ramp). -/
noncomputable def seedTop : Color :=
  ⟨"teal", ⟨62, -35, 0⟩, 9, ShadingFunction.easeOut, 0.9, 0.85⟩

/-- A seed with `targetIndex = 0` (single-element head). -/
noncomputable def seedBottom : Color :=
  ⟨"blue", ⟨66, -5, -45⟩, 0, ShadingFunction.easeIn, 0.9, 0.85⟩

/-- The claimed behavior of the ramp's two distinguished entries: entry 9 is
exactly the black-mixed darkest endpoint; entry `targetIndex` is the last
head sample; and that sample differs from the seed color whenever the
lightest endpoint does. -/
def LastEntrySpec (c : Color) : Prop :=
  (getShades c)[9]? = some (mixLab c.hex BLACK c.blackMixRatio) ∧
  (getShades c)[c.targetIndex]? =
    some (scaleLab (mixLab c.hex WHITE c.whiteMixRatio) c.hex
      (SHADING c.shadingFunction
        ((c.targetIndex : ℝ) / ((c.targetIndex + 1 : ℕ) : ℝ)))) ∧
  (mixLab c.hex WHITE c.whiteMixRatio ≠ c.hex →
    scaleLab (mixLab c.hex WHITE c.whiteMixRatio) c.hex
      (SHADING c.shadingFunction
        ((c.targetIndex : ℝ) / ((c.targetIndex + 1 : ℕ) : ℝ))) ≠ c.hex)

/-- The red seed with `whiteMixRatio = 0`: the lightest endpoint collapses
onto the seed, so every head sample equals the seed color exactly. -/
noncomputable def seedNoWhite : Color :=
  ⟨"red", ⟨55, 45, 35⟩, 5, ShadingFunction.linear, 0, 0.85⟩

/-- The red seed with `blackMixRatio = 0`: the darkest endpoint collapses
onto the seed, so every tail sample equals the seed color exactly. -/
noncomputable def seedNoBlack : Color :=
  ⟨"red", ⟨55, 45, 35⟩, 5, ShadingFunction.linear, 0.9, 0⟩

/-- A seed with `whiteMixRatio = 2`, outside [0,1]. -/
noncomputable def seedOverWhite : Color :=
  ⟨"over", ⟨55, 45, 35⟩, 0, ShadingFunction.linear, 2, 0.85⟩

/-- `seedOverWhite` with the white mix ratio clamped to 1. -/
noncomputable def seedOverWhiteClamped : Color :=
  { seedOverWhite with whiteMixRatio := 1 }

/-- What actually happens to an out-of-range white mix ratio: `generate`
still returns 10 colors, its first entry is the unclamped linear
extrapolation `mix(seed, WHITE, r)`, and that differs from the `r = 1`
endpoint. -/
def UnclampedSpec (c : Color) : Prop :=
  (getShades c).length = 10 ∧
  (getShades c)[0]? = some (mixLab c.hex WHITE c.whiteMixRatio) ∧
  mixLab c.hex WHITE c.whiteMixRatio ≠ mixLab c.hex WHITE 1

/-- The frame property of an in-range update: same length; the entry at the
index is the copied original with the one field replaced; reading the named
field of the new entry gives the new value and every other field is
unchanged; every other position holds the copied original entry. -/
def UpdateEntrySpec (palette : List Color) (i : ℕ) (a : ColorAttr)
    (v : AttrType a) : Prop :=
  (updateAttrForIndex palette (i : ℤ) a v).length = palette.length ∧
  (updateAttrForIndex palette (i : ℤ) a v)[i]? =
    (palette[i]?).map (fun c => setAttr (toObj c) a v) ∧
  (∀ c : Color, palette[i]? = some c →
    getAttr (setAttr (toObj c) a v) a = some v ∧
    ∀ a2 : ColorAttr, a2 ≠ a →
      getAttr (setAttr (toObj c) a v) a2 = getAttr (toObj c) a2) ∧
  (∀ j : ℕ, j ≠ i →
    (updateAttrForIndex palette (i : ℤ) a v)[j]? = (palette[j]?).map toObj)

/-- What an out-of-range update actually does: never an error.  An index at
or past the end grows the array to `index + 1` entries, the entry at the
index holding only the updated field, the copied originals unchanged below;
a negative index leaves the copied array's elements unchanged. -/
def OutOfRangeSpec (palette : List Color) (a : ColorAttr)
    (v : AttrType a) : Prop :=
  (∀ n : ℕ, palette.length ≤ n →
    (updateAttrForIndex palette (n : ℤ) a v).length = n + 1 ∧
    (updateAttrForIndex palette (n : ℤ) a v)[n]? =
      some (setAttr emptyObj a v) ∧
    ∀ j : ℕ, j < palette.length →
      (updateAttrForIndex palette (n : ℤ) a v)[j]? =
        (palette[j]?).map toObj) ∧
  (∀ i : ℤ, i < 0 → updateAttrForIndex palette i a v = palette.map toObj)

/-! ### Claims -/

/-- C1: for every seed with `targetIndex` in [0,9], any of the four easing
functions and mix ratios in [0,1], `generate` returns exactly 10 colors: a
head of `targetIndex + 1` samples of the light-to-seed LAB gradient at the
eased parameters `shadingFunction(i / n)`, concatenated with a tail of
`9 - targetIndex` samples of the seed-to-dark LAB gradient at the linear
parameters `j / m`. -/
theorem getShades_generate_spec (c : Color) (h9 : c.targetIndex ≤ 9)
    (hw0 : 0 ≤ c.whiteMixRatio) (hw1 : c.whiteMixRatio ≤ 1)
    (hb0 : 0 ≤ c.blackMixRatio) (hb1 : c.blackMixRatio ≤ 1) :
    GetShadesSpec c :=
  ⟨getShades_length c h9,
    fun i hi => getShades_getElem_head c i hi,
    fun j hj1 hj2 => getShades_getElem_tail c j hj1 hj2 h9⟩

/-- Witness for C1 at the representative red seed. -/
theorem getShades_generate_spec_witness :
    seedRed.targetIndex ≤ 9 ∧
    (0 ≤ seedRed.whiteMixRatio ∧ seedRed.whiteMixRatio ≤ 1) ∧
    (0 ≤ seedRed.blackMixRatio ∧ seedRed.blackMixRatio ≤ 1) ∧
    GetShadesSpec seedRed :=
  ⟨by norm_num [seedRed], ⟨by norm_num [seedRed], by norm_num [seedRed]⟩,
    ⟨by norm_num [seedRed], by norm_num [seedRed]⟩,
    getShades_generate_spec seedRed (by norm_num [seedRed])
      (by norm_num [seedRed]) (by norm_num [seedRed])
      (by norm_num [seedRed]) (by norm_num [seedRed])⟩

/-- C3: boundary behavior of `generate`: with `targetIndex = 9` the tail is
empty and the whole 10-entry ramp is the eased head (the `j/m` parameter
with `m = 0` is never evaluated); with `targetIndex = 0` the head is the
single color obtained by evaluating the easing at `0/1 = 0`, which is
exactly the lightest endpoint `mix(seed.color, WHITE, whiteMixRatio)`. -/
theorem getShades_boundary (c : Color) :
    (c.targetIndex = 9 → HeadOnly c) ∧ (c.targetIndex = 0 → SingleHead c) := by
  constructor
  · intro h
    unfold HeadOnly
    simp only [getShades, h]
    norm_num
  · intro h
    unfold SingleHead
    have hr1 : List.range 1 = [0] := rfl
    simp only [getShades, h, Nat.zero_add, hr1, List.map_cons, List.map_nil,
      List.singleton_append, List.map_map, Nat.cast_zero, Nat.cast_one,
      zero_div, SHADING_zero, List.cons.injEq]
    refine ⟨mixLab_zero _ _, ?_⟩
    apply List.map_congr_left
    intro i _
    rw [Function.comp_apply, SHADING_linear]
    push_cast
    norm_num

/-- Witness for C3 at a `targetIndex = 9` seed and a `targetIndex = 0` seed. -/
theorem getShades_boundary_witness :
    (seedTop.targetIndex = 9 ∧ HeadOnly seedTop) ∧
    (seedBottom.targetIndex = 0 ∧ SingleHead seedBottom) :=
  ⟨⟨rfl, (getShades_boundary seedTop).1 rfl⟩,
    ⟨rfl, (getShades_boundary seedBottom).2 rfl⟩⟩

/-- C2 counterexample: for the seed with `whiteMixRatio = 0` (a valid seed
with `targetIndex = 5 ≤ 8`), the ramp entry at `targetIndex` equals the
seed color exactly, refuting "close to but not equal to seed.color" as
universally stated. -/
theorem ramp_targetIndex_eq_seed_cex :
    (getShades seedNoWhite)[5]? = some seedNoWhite.hex := by
  have h := getShades_getElem_head seedNoWhite 5 (by norm_num [seedNoWhite])
  have h5 : seedNoWhite.targetIndex = 5 := rfl
  rw [h5] at h
  rw [h]
  simp [seedNoWhite, scaleLab, mixLab_zero, mixLab_self]

/-- C2 (amended): for every seed with `targetIndex ≤ 8`, ramp entry 9
equals `mix(seed.color, BLACK, blackMixRatio)` in LAB exactly (the last
tail parameter is `linear(m/m) = 1`), and the ramp entry at `targetIndex`
is the last head sample — which differs from `seed.color` provided the
lightest endpoint `mix(seed.color, WHITE, whiteMixRatio)` differs from
`seed.color`. -/
theorem getShades_last_entries (c : Color) (h8 : c.targetIndex ≤ 8) :
    LastEntrySpec c := by
  have h9 : c.targetIndex ≤ 9 := by omega
  refine ⟨?_, ?_, ?_⟩
  · have ht := getShades_getElem_tail c (9 - c.targetIndex) (by omega)
      (le_refl _) h9
    have hidx : c.targetIndex + (9 - c.targetIndex) = 9 := by omega
    rw [hidx] at ht
    have hne : ((9 - c.targetIndex : ℕ) : ℝ) ≠ 0 := by
      rw [Ne, Nat.cast_eq_zero]
      omega
    rw [div_self hne] at ht
    rw [ht]
    exact congrArg some (mixLab_one _ _)
  · exact getShades_getElem_head c c.targetIndex (le_refl _)
  · intro hlight
    have hpos : (0 : ℝ) < ((c.targetIndex + 1 : ℕ) : ℝ) := by
      exact_mod_cast Nat.succ_pos c.targetIndex
    have h0 : (0 : ℝ) ≤ (c.targetIndex : ℝ) / ((c.targetIndex + 1 : ℕ) : ℝ) := by
      positivity
    have h1 : (c.targetIndex : ℝ) / ((c.targetIndex + 1 : ℕ) : ℝ) < 1 := by
      rw [div_lt_one hpos]
      push_cast
      linarith
    exact mixLab_ne_right hlight (ne_of_lt (SHADING_lt_one _ h0 h1))

/-- Witness for the amended C2 at the representative red seed. -/
theorem getShades_last_entries_witness :
    seedRed.targetIndex ≤ 8 ∧
    mixLab seedRed.hex WHITE seedRed.whiteMixRatio ≠ seedRed.hex ∧
    LastEntrySpec seedRed :=
  ⟨by norm_num [seedRed],
    fun hEq => by
      have hL := congrArg Lab.L hEq
      norm_num [seedRed, mixLab, WHITE] at hL,
    getShades_last_entries seedRed (by norm_num [seedRed])⟩

/-- C4 counterexample: with `whiteMixRatio = 2`, `generate` does not behave
as if the ratio were 1 — the ramps differ (entry 0 is the extrapolated
L = 145 endpoint rather than white). -/
theorem getShades_ratio_clamping_cex :
    getShades seedOverWhite ≠ getShades seedOverWhiteClamped := by
  intro hEq
  have h1 := getShades_getElem_head seedOverWhite 0 (Nat.zero_le _)
  have h2 := getShades_getElem_head seedOverWhiteClamped 0 (Nat.zero_le _)
  rw [hEq] at h1
  have h3 := h1.symm.trans h2
  simp only [Option.some.injEq] at h3
  have hL := congrArg Lab.L h3
  norm_num [seedOverWhite, seedOverWhiteClamped, scaleLab, mixLab, WHITE,
    SHADING_zero, SHADING] at hL

/-- C4 (amended): an out-of-range mix ratio is not clamped and causes no
failure: `generate` still returns 10 colors, and for `whiteMixRatio > 1`
(with seed color different from white) the lightest endpoint is the
unclamped LAB extrapolation `mix(seed, WHITE, r)`, which differs from the
result the claimed clamping to `r = 1` would give. -/
theorem getShades_ratio_unclamped (c : Color) (h9 : c.targetIndex ≤ 9)
    (hr : 1 < c.whiteMixRatio) (hne : c.hex ≠ WHITE) :
    UnclampedSpec c := by
  refine ⟨getShades_length c h9, ?_, ?_⟩
  · have h := getShades_getElem_head c 0 (Nat.zero_le _)
    rw [h]
    congr 1
    rw [Nat.cast_zero, zero_div, SHADING_zero]
    exact mixLab_zero _ _
  · rw [mixLab_one]
    exact mixLab_ne_right hne (by linarith)

/-- Witness for the amended C4 at the ratio-2 seed. -/
theorem getShades_ratio_unclamped_witness :
    seedOverWhite.targetIndex ≤ 9 ∧ 1 < seedOverWhite.whiteMixRatio ∧
    seedOverWhite.hex ≠ WHITE ∧ UnclampedSpec seedOverWhite :=
  ⟨by norm_num [seedOverWhite], by norm_num [seedOverWhite],
    fun hEq => by
      have hL := congrArg Lab.L hEq
      norm_num [seedOverWhite, WHITE] at hL,
    getShades_ratio_unclamped seedOverWhite (by norm_num [seedOverWhite])
      (by norm_num [seedOverWhite])
      (fun hEq => by
        have hL := congrArg Lab.L hEq
        norm_num [seedOverWhite, WHITE] at hL)⟩

/-- C8 counterexample: a seed whose lightest endpoint differs from the seed
color but whose `blackMixRatio` is 0 has the seed color itself among the 10
output entries (every tail sample equals the seed), refuting the claim as
stated. -/
theorem seed_in_getShades_cex :
    mixLab seedNoBlack.hex WHITE seedNoBlack.whiteMixRatio ≠ seedNoBlack.hex ∧
    seedNoBlack.hex ∈ getShades seedNoBlack := by
  constructor
  · intro hEq
    have hL := congrArg Lab.L hEq
    norm_num [seedNoBlack, mixLab, WHITE] at hL
  · have h := getShades_getElem_tail seedNoBlack 1 (le_refl 1)
      (by norm_num [seedNoBlack]) (by norm_num [seedNoBlack])
    rw [show seedNoBlack.targetIndex + 1 = 6 from rfl] at h
    rw [show mixLab seedNoBlack.hex BLACK seedNoBlack.blackMixRatio
        = seedNoBlack.hex from mixLab_zero _ _] at h
    rw [show scaleLab seedNoBlack.hex seedNoBlack.hex
          ((1 : ℕ) / ((9 - seedNoBlack.targetIndex : ℕ) : ℝ))
        = seedNoBlack.hex from mixLab_self _ _] at h
    exact List.getElem?_mem h

/-- C8 (amended): for every valid seed whose lightest endpoint AND darkest
endpoint both differ from the seed color, the seed color itself is never
one of the 10 output entries: every head parameter is strictly below 1 and
every tail parameter is strictly above 0. -/
theorem seed_not_in_getShades (c : Color) (h9 : c.targetIndex ≤ 9)
    (hw : mixLab c.hex WHITE c.whiteMixRatio ≠ c.hex)
    (hb : mixLab c.hex BLACK c.blackMixRatio ≠ c.hex) :
    c.hex ∉ getShades c := by
  intro hmem
  simp only [getShades, List.mem_append, List.mem_map, List.mem_range] at hmem
  rcases hmem with ⟨i, hi, heq⟩ | ⟨i, ⟨j, hj, hji⟩, heq⟩
  · have hpos : (0 : ℝ) < ((c.targetIndex + 1 : ℕ) : ℝ) := by
      exact_mod_cast Nat.succ_pos c.targetIndex
    have h0 : (0 : ℝ) ≤ (i : ℝ) / ((c.targetIndex + 1 : ℕ) : ℝ) := by
      positivity
    have h1 : (i : ℝ) / ((c.targetIndex + 1 : ℕ) : ℝ) < 1 := by
      rw [div_lt_one hpos]
      exact_mod_cast hi
    exact mixLab_ne_right hw (ne_of_lt (SHADING_lt_one _ h0 h1)) heq
  · subst hji
    rw [SHADING_linear] at heq
    have hnum : ((j + 1 : ℕ) : ℝ) ≠ 0 := by
      exact_mod_cast Nat.succ_ne_zero j
    have hden : ((10 - (c.targetIndex + 1) : ℕ) : ℝ) ≠ 0 := by
      rw [Ne, Nat.cast_eq_zero]
      omega
    exact mixLab_ne_left hb.symm (div_ne_zero hnum hden) heq

/-- Witness for the amended C8 at the representative red seed. -/
theorem seed_not_in_getShades_witness :
    seedRed.targetIndex ≤ 9 ∧
    mixLab seedRed.hex WHITE seedRed.whiteMixRatio ≠ seedRed.hex ∧
    mixLab seedRed.hex BLACK seedRed.blackMixRatio ≠ seedRed.hex ∧
    seedRed.hex ∉ getShades seedRed :=
  ⟨by norm_num [seedRed],
    fun hEq => by
      have hL := congrArg Lab.L hEq
      norm_num [seedRed, mixLab, WHITE] at hL,
    fun hEq => by
      have hL := congrArg Lab.L hEq
      norm_num [seedRed, mixLab, BLACK] at hL,
    seed_not_in_getShades seedRed (by norm_num [seedRed])
      (fun hEq => by
        have hL := congrArg Lab.L hEq
        norm_num [seedRed, mixLab, WHITE] at hL)
      (fun hEq => by
        have hL := congrArg Lab.L hEq
        norm_num [seedRed, mixLab, BLACK] at hL)⟩

/-- C7: each of the four easing functions satisfies `f(0) = 0` and
`f(1) = 1` to within tolerance 1e-9 (in fact exactly). -/
theorem SHADING_endpoints (sf : ShadingFunction) :
    |SHADING sf 0 - 0| ≤ 1e-9 ∧ |SHADING sf 1 - 1| ≤ 1e-9 := by
  rw [SHADING_zero, SHADING_one]
  norm_num

/-- C5 counterexample: updating index 1 of a one-entry palette does not
fail: it returns a two-entry palette whose new last entry holds only the
updated field. -/
theorem update_out_of_range_succeeds_cex :
    (updateAttrForIndex [seedRed] 1 ColorAttr.name "renamed").length = 2 ∧
    (updateAttrForIndex [seedRed] 1 ColorAttr.name "renamed")[1]? =
      some (setAttr emptyObj ColorAttr.name "renamed") := by
  have h := updateAttrForIndex_oob_eq [seedRed] 1 (by norm_num)
    ColorAttr.name "renamed"
  rw [show ((1 : ℕ) : ℤ) = (1 : ℤ) from rfl] at h
  rw [h]
  constructor
  · rfl
  · rfl

/-- C5 (amended): an out-of-range palette update does not fail with an
`IndexOutOfRange` error: for an index at or past the end the update
succeeds and grows the array (the entry at the index holding only the
updated field), and for a negative index it returns the copied palette
unchanged. -/
theorem updateAttrForIndex_out_of_range (palette : List Color)
    (a : ColorAttr) (v : AttrType a) : OutOfRangeSpec palette a v := by
  constructor
  · intro n hn
    have h := updateAttrForIndex_oob_eq palette n hn a v
    have hA : ((palette.map toObj) ++
        List.replicate (n - palette.length) emptyObj).length = n := by
      simp only [List.length_append, List.length_map, List.length_replicate]
      omega
    refine ⟨?_, ?_, ?_⟩
    · rw [h, List.length_append, hA]
      rfl
    · rw [h, List.getElem?_append_right (le_of_eq hA), hA]
      simp
    · intro j hj
      rw [h, List.getElem?_append_left (by rw [hA]; omega),
        List.getElem?_append_left (by simpa using hj), List.getElem?_map]
  · intro i hi
    simp only [updateAttrForIndex, if_pos hi]

/-- Witness for the amended C5: a one-entry palette updated at index 1 and
at index -1. -/
theorem updateAttrForIndex_out_of_range_witness :
    OutOfRangeSpec [seedRed] ColorAttr.name "renamed" ∧
    (updateAttrForIndex [seedRed] ((1 : ℕ) : ℤ) ColorAttr.name
      "renamed").length = 1 + 1 ∧
    updateAttrForIndex [seedRed] (-1) ColorAttr.name "renamed" =
      [seedRed].map toObj :=
  ⟨updateAttrForIndex_out_of_range [seedRed] ColorAttr.name "renamed",
    ((updateAttrForIndex_out_of_range [seedRed] ColorAttr.name "renamed").1 1
      (by norm_num)).1,
    (updateAttrForIndex_out_of_range [seedRed] ColorAttr.name "renamed").2
      (-1) (by norm_num)⟩

/-- C6: for every palette, in-range index, field and value, the update
returns a palette in which only the named field of the entry at that index
is replaced with the new value; every other field of that entry and every
other entry are unchanged (the original palette value, being a pure value
in this embedding, is untouched). -/
theorem updateAttrForIndex_frame (palette : List Color) (i : ℕ)
    (h : i < palette.length) (a : ColorAttr) (v : AttrType a) :
    UpdateEntrySpec palette i a v := by
  have hset := updateAttrForIndex_set_eq palette i h a v
  refine ⟨?_, ?_, ?_, ?_⟩
  · rw [hset]
    simp
  · rw [hset, List.getElem?_set_self (by simpa using h),
      List.getElem?_eq_getElem h]
    rfl
  · intro c hc
    refine ⟨getAttr_setAttr_same _ a v, ?_⟩
    intro a2 ha2
    exact getAttr_setAttr_other _ a v a2 ha2
  · intro j hj
    rw [hset, List.getElem?_set_ne (fun hEq => hj hEq.symm),
      List.getElem?_map]

/-- Witness for C6: renaming entry 0 of a two-entry palette to
"charcoal". -/
theorem updateAttrForIndex_frame_witness :
    0 < ([seedRed, seedTop] : List Color).length ∧
    UpdateEntrySpec [seedRed, seedTop] 0 ColorAttr.name "charcoal" :=
  ⟨by norm_num,
    updateAttrForIndex_frame [seedRed, seedTop] 0 (by norm_num)
      ColorAttr.name "charcoal"⟩

/-- C10: the mix-ratio input fallback fires on every falsy parsed value,
not only non-numeric text: parsing "0" (or the empty string, which parses
to 0) stores the default 0.9 instead of 0, non-numeric text stores 0.9,
any nonzero value is kept, and no input can ever store a ratio of exactly
0; an in-range update with the fallback value therefore writes 0.9 into
the entry. -/
theorem ratioInputFallback_zero_spec :
    ratioInputFallback (some 0) = 0.9 ∧
    ratioInputFallback none = 0.9 ∧
    (∀ x : ℝ, x ≠ 0 → ratioInputFallback (some x) = x) ∧
    (∀ p : Option ℝ, ratioInputFallback p ≠ 0) ∧
    (∀ (palette : List Color) (i : ℕ), i < palette.length →
      (updateAttrForIndex palette (i : ℤ) ColorAttr.whiteMixRatio
          (ratioInputFallback (some 0)))[i]? =
        (palette[i]?).map
          (fun c => setAttr (toObj c) ColorAttr.whiteMixRatio (0.9 : ℝ))) := by
  have hz : ratioInputFallback (some 0) = 0.9 := by
    simp [ratioInputFallback]
  refine ⟨hz, rfl, ?_, ?_, ?_⟩
  · intro x hx
    simp [ratioInputFallback, hx]
  · intro p
    match p with
    | none =>
      simp only [ratioInputFallback]
      norm_num
    | some x =>
      simp only [ratioInputFallback]
      split
      · norm_num
      · assumption
  · intro palette i h
    rw [hz, updateAttrForIndex_set_eq palette i h,
      List.getElem?_set_self (by simpa using h), List.getElem?_eq_getElem h]
    rfl

/-- Witness for C10: a nonzero ratio is kept, and updating entry 0 of a
one-entry palette with the fallback of a parsed 0 stores 0.9. -/
theorem ratioInputFallback_zero_spec_witness :
    ((0.5 : ℝ) ≠ 0 ∧ ratioInputFallback (some 0.5) = 0.5) ∧
    (0 < ([seedRed] : List Color).length ∧
      (updateAttrForIndex [seedRed] ((0 : ℕ) : ℤ) ColorAttr.whiteMixRatio
          (ratioInputFallback (some 0)))[0]? =
        ([seedRed][0]?).map
          (fun c => setAttr (toObj c) ColorAttr.whiteMixRatio (0.9 : ℝ))) :=
  ⟨⟨by norm_num,
      ratioInputFallback_zero_spec.2.2.1 0.5 (by norm_num)⟩,
    ⟨by norm_num,
      ratioInputFallback_zero_spec.2.2.2.2 [seedRed] 0 (by norm_num)⟩⟩

/-! ### The CSS export surface -/

theorem CssLines_cons (cssHsl : Lab → String) (c : Color) (cs : List Color) :
    CssLines cssHsl (c :: cs) =
      (getShades c).mapIdx (fun i shade =>
        "  --" ++ c.name ++ "-" ++ toString i ++ ": " ++ cssHsl shade ++ ";")
        ++ CssLines cssHsl cs := by
  simp [CssLines]

theorem CssLines_length (cssHsl : Lab → String) (colors : List Color)
    (h : ∀ c ∈ colors, c.targetIndex ≤ 9) :
    (CssLines cssHsl colors).length = 10 * colors.length := by
  induction colors with
  | nil => simp [CssLines]
  | cons c cs ih =>
    rw [CssLines_cons, List.length_append, List.length_mapIdx,
      getShades_length c (h c (List.mem_cons_self c cs)),
      ih (fun x hx => h x (List.mem_cons_of_mem c hx)), List.length_cons]
    ring

theorem CssLines_getElem (cssHsl : Lab → String) (colors : List Color)
    (h : ∀ c ∈ colors, c.targetIndex ≤ 9) :
    ∀ e : ℕ, (he : e < colors.length) → ∀ i : ℕ, i < 10 →
      (CssLines cssHsl colors)[10 * e + i]? =
        ((getShades (colors.get ⟨e, he⟩))[i]?).map
          (fun shade => "  --" ++ (colors.get ⟨e, he⟩).name ++ "-" ++
            toString i ++ ": " ++ cssHsl shade ++ ";") := by
  induction colors with
  | nil =>
    intro e he
    simp at he
  | cons c cs ih =>
    intro e he i hi
    have hlen : ((getShades c).mapIdx (fun i shade =>
        "  --" ++ c.name ++ "-" ++ toString i ++ ": " ++ cssHsl shade ++ ";")).length = 10 := by
      rw [List.length_mapIdx, getShades_length c (h c (List.mem_cons_self c cs))]
    cases e with
    | zero =>
      rw [CssLines_cons, List.getElem?_append_left (by omega)]
      simp only [Nat.mul_zero, Nat.zero_add, List.getElem?_mapIdx]
      rfl
    | succ e2 =>
      rw [CssLines_cons, List.getElem?_append_right (by omega)]
      have hidx : 10 * (e2 + 1) + i - ((getShades c).mapIdx (fun i shade =>
          "  --" ++ c.name ++ "-" ++ toString i ++ ": " ++ cssHsl shade ++ ";")).length
          = 10 * e2 + i := by omega
      rw [hidx]
      exact ih (fun x hx => h x (List.mem_cons_of_mem c hx)) e2
        (Nat.lt_of_succ_lt_succ he) i hi

/-- The claimed shape of the CSS export text: the `:root { ... }` wrapper
around the newline-joined declaration lines; exactly `10 * k` declaration
lines for a `k`-entry palette; and the line at position `10*e + i` is the
declaration `  --<name>-<i>: <cssHsl>;` for shade `i` of entry `e`. -/
def CssOutputSpec (cssHsl : Lab → String) (colors : List Color) : Prop :=
  cssVariablesOutput cssHsl colors =
    ":root \x7b\n" ++ String.intercalate "\n" (CssLines cssHsl colors) ++ "\n\x7d" ∧
  (CssLines cssHsl colors).length = 10 * colors.length ∧
  ∀ e : ℕ, (he : e < colors.length) → ∀ i : ℕ, i < 10 →
    (CssLines cssHsl colors)[10 * e + i]? =
      ((getShades (colors.get ⟨e, he⟩))[i]?).map
        (fun shade => "  --" ++ (colors.get ⟨e, he⟩).name ++ "-" ++
          toString i ++ ": " ++ cssHsl shade ++ ";")

/-- C9: for every palette of `k` entries (with valid target indices) and
every rendering of shades to CSS `hsl()` strings, the export text is the
`:root { ... }` block wrapping exactly `10 * k` newline-joined declaration
lines `  --<name>-<index>: <cssHsl>;`, ordered by palette position and then
by shade index 0..9. -/
theorem cssVariablesOutput_spec (cssHsl : Lab → String) (colors : List Color)
    (h : ∀ c ∈ colors, c.targetIndex ≤ 9) : CssOutputSpec cssHsl colors :=
  ⟨rfl, CssLines_length cssHsl colors h, CssLines_getElem cssHsl colors h⟩

/-- Witness for C9 at a one-entry palette and a constant hsl renderer. -/
theorem cssVariablesOutput_spec_witness :
    (∀ c ∈ ([seedRed] : List Color), c.targetIndex ≤ 9) ∧
    CssOutputSpec (fun _ => "hsl(10 68% 57%)") [seedRed] :=
  ⟨fun c hc => by
      rw [List.mem_singleton] at hc
      rw [hc]
      norm_num [seedRed],
    cssVariablesOutput_spec (fun _ => "hsl(10 68% 57%)") [seedRed]
      (fun c hc => by
        rw [List.mem_singleton] at hc
        rw [hc]
        norm_num [seedRed])⟩

end Cranberry
